import Mathlib

/-!
Shallow embedding of the `httprecord` CoreDNS plugin (files
`responseparsers.go`, `httprecord.go`) for checking its specification.

Conventions of the embedding:
* Go strings are Lean `String`s; byte-level operations work over `s.toList`
  (all inputs of interest are ASCII).
* `uint32` values are `Nat` with an explicit `% 2^32` at the conversion
  points the Go code has (`uint32(n)` casts).
* Fallible Go functions returning `(T, error)` become `T × Option E`.
* External effects (the HTTP GET, the DNS response writer) are turned into
  explicit inputs/outputs: the network outcome of a fetch is a `FetchInput`
  record, and writing a reply is returning the would-be answer section.
-/

namespace HTTPRecord

/-! ### Go standard-library helpers used by the plugin -/

/-- Go's `asciiSpace` set ('\t', '\n', '\v', '\f', '\r', ' '), the
characters `strings.TrimSpace` strips on ASCII input (the plugin's
payloads are ASCII). -/
def goSpaceChar (c : Char) : Bool :=
  c == ' ' || c == '\t' || c == '\n' || c == '\x0b' || c == '\x0c' || c == '\r'

/-- `strings.TrimSpace` over the character list. -/
def goTrimChars (cs : List Char) : List Char :=
  ((cs.dropWhile goSpaceChar).reverse.dropWhile goSpaceChar).reverse

/-- `strings.Split(s, sep)` for a one-character separator: the segments
between occurrences of `sep`, empty segments kept, `[""]` for `""`. -/
def splitOnChar (sep : Char) : List Char → List (List Char)
  | [] => [[]]
  | c :: rest =>
    match splitOnChar sep rest with
    | [] => [[]]
    | h :: t => if c == sep then [] :: h :: t else (c :: h) :: t

/-- `strings.Join(ps, sep)` for a one-character separator. -/
def joinWith (sep : Char) : List (List Char) → List Char
  | [] => []
  | [p] => p
  | p :: rest => p ++ sep :: joinWith sep rest

/-- `strconv.Atoi`: the parsed value and whether `err == nil`.
Invalid syntax gives `(0, false)`; a pure-digit string past `int64` range
gives the clamped bound and `false` (Go's `ErrRange` behaviour). -/
def goAtoi (s : String) : Int × Bool :=
  let cs := s.toList
  if cs.isEmpty then (0, false)
  else
    let signed := cs.head? == some '-'
    let ds := if cs.head? == some '+' || cs.head? == some '-' then cs.tail else cs
    if ds.isEmpty || ds.any (fun c => !c.isDigit) then (0, false)
    else
      let n : Nat := ds.foldl (fun a c => a * 10 + (c.toNat - 48)) 0
      if signed then
        if n ≤ 2 ^ 63 then (-(n : Int), true) else (-(2 ^ 63 : Int), false)
      else
        if n < 2 ^ 63 then ((n : Int), true) else ((2 ^ 63 : Int) - 1, false)

/-- Go's `uint32(i)` conversion from a (possibly negative) integer. -/
def intToUInt32 (i : Int) : Nat := (i % (2 ^ 32 : Int)).toNat

/-! ### responseparsers.go: the line parser -/

/-- The keys of `dns.StringToType` from miekg/dns (all upper-case; the map
lookup in `isType` is case-sensitive). -/
def dnsTypeKeywords : List String :=
  ["A", "AAAA", "AFSDB", "ANY", "APL", "ATMA", "AVC", "AXFR", "CAA",
   "CDNSKEY", "CDS", "CERT", "CNAME", "CSYNC", "DHCID", "DLV", "DNAME",
   "DNSKEY", "DS", "EID", "EUI48", "EUI64", "GID", "GPOS", "HINFO", "HIP",
   "IPSECKEY", "ISDN", "IXFR", "KEY", "KX", "L32", "L64", "LOC", "LP",
   "MAILA", "MAILB", "MB", "MD", "MF", "MG", "MINFO", "MR", "MX", "NAPTR",
   "NID", "NIMLOC", "NINFO", "NS", "NSAP-PTR", "NSEC", "NSEC3",
   "NSEC3PARAM", "NULL", "NXT", "None", "OPENPGPKEY", "OPT", "PTR", "PX",
   "RKEY", "RP", "RRSIG", "RT", "Reserved", "SIG", "SMIMEA", "SOA", "SPF",
   "SRV", "SSHFP", "TA", "TALINK", "TKEY", "TLSA", "TSIG", "TXT", "UID",
   "UINFO", "UNSPEC", "URI", "X25"]

/-- `isType` in responseparsers.go: membership in `dns.StringToType`. -/
def isType (t : String) : Bool := dnsTypeKeywords.contains t

/-- `strings.Split(string(r), " ")`, shared by the three `recordLine`
methods. -/
def fields (r : String) : List (List Char) := splitOnChar ' ' r.toList

/-- `recordLine.Type()`: `if len(p) >= 2 && isType(p[0]) { return p[0] }`
else `""`. -/
def recType (r : String) : String :=
  if 2 ≤ (fields r).length && isType (String.mk ((fields r).headD [])) then
    String.mk ((fields r).headD [])
  else ""

/-- `recordLine.TTL()`: `if len(p) >= 3 && isType(p[0])` then
`uint32(Atoi(p[1]))` (the error ignored), else 0. -/
def recTTL (r : String) : Nat :=
  if 3 ≤ (fields r).length && isType (String.mk ((fields r).headD [])) then
    intToUInt32 (goAtoi (String.mk ((fields r).getD 1 []))).1
  else 0

/-- `recordLine.Payload()`: drop a leading type keyword and, after it, a
numeric TTL token when present (only if more tokens remain); rejoin with
single spaces. -/
def recPayload (r : String) : String :=
  let p := fields r
  let q :=
    if p.length > 1 && isType (String.mk (p.headD [])) then
      let q1 := p.tail
      if q1.length > 1 && (goAtoi (String.mk (q1.headD []))).2 then q1.tail else q1
    else p
  String.mk (joinWith ' ' q)

/-- `parseLines`: split the body on '\n', trim each line, drop empties. -/
def parseLines (response : String) : List String :=
  (splitOnChar '\n' response.toList).filterMap (fun line =>
    let l := goTrimChars line
    if l.isEmpty then none else some (String.mk l))

/-! ### net.ParseIP (Go standard library, as used by parseA/parseAAAA)

An IP is its byte list (length 4 or 16); `net.ParseIP` returning `nil`
becomes `none`. The embedding follows `net/ip.go`'s `dtoi`, `xtoi`,
`parseIPv4`, `parseIPv6` and `ParseIP` (Go 1.17+ semantics: leading zeros
in dotted quads rejected, `%zone` suffixes rejected). -/

/-- `dtoi`: decimal prefix value, characters consumed, ok. The `big`
cutoff is 0xFFFFFF as in Go. -/
def dtoiAux : List Char → Nat → Nat → Nat × Nat × Bool
  | [], n, i => if i == 0 then (0, 0, false) else (n, i, true)
  | c :: rest, n, i =>
    if c.isDigit then
      let n2 := n * 10 + (c.toNat - 48)
      if n2 ≥ 0xFFFFFF then (0xFFFFFF, i, false)
      else dtoiAux rest n2 (i + 1)
    else if i == 0 then (0, 0, false) else (n, i, true)

def dtoi (s : List Char) : Nat × Nat × Bool := dtoiAux s 0 0

def hexVal (c : Char) : Option Nat :=
  if '0' ≤ c && c ≤ '9' then some (c.toNat - 48)
  else if 'a' ≤ c && c ≤ 'f' then some (c.toNat - 97 + 10)
  else if 'A' ≤ c && c ≤ 'F' then some (c.toNat - 65 + 10)
  else none

/-- `xtoi`: hexadecimal prefix value, characters consumed, ok. -/
def xtoiAux : List Char → Nat → Nat → Nat × Nat × Bool
  | [], n, i => if i == 0 then (0, i, false) else (n, i, true)
  | c :: rest, n, i =>
    match hexVal c with
    | none => if i == 0 then (0, i, false) else (n, i, true)
    | some d =>
      let n2 := n * 16 + d
      if n2 ≥ 0xFFFFFF then (0, i, false) else xtoiAux rest n2 (i + 1)

def xtoi (s : List Char) : Nat × Nat × Bool := xtoiAux s 0 0

/-- One dotted-quad field after another: `count` fields, requiring a '.'
separator before every field except the first; returns the field bytes and
the unconsumed remainder. Renders `parseIPv4`'s loop. -/
def parseIPv4Fields : Nat → List Char → Bool → Option (List Nat × List Char)
  | 0, s, _ => some ([], s)
  | k + 1, s, needDot =>
    if s.isEmpty then none
    else
      let s2 := if needDot then (match s with | '.' :: r => some r | _ => none) else some s
      match s2 with
      | none => none
      | some s3 =>
        let (n, c, ok) := dtoi s3
        if !ok || n > 0xFF then none
        else if c > 1 && s3.head? == some '0' then none
        else
          match parseIPv4Fields k (s3.drop c) true with
          | none => none
          | some (bs, rest) => some (n :: bs, rest)

/-- `v4InV6Prefix`: `net.IPv4` represents v4 addresses as 16 bytes. -/
def v4InV6Prefix : List Nat := [0, 0, 0, 0, 0, 0, 0, 0, 0, 0, 0xff, 0xff]

def parseIPv4 (s : List Char) : Option (List Nat) :=
  match parseIPv4Fields 4 s false with
  | some (bs, rest) => if rest.isEmpty then some (v4InV6Prefix ++ bs) else none
  | none => none

def ipGet (ip : List Nat) (i : Nat) : Nat := ip.getD i 0

def ipSet (ip : List Nat) (i : Nat) (v : Nat) : List Nat := ip.set i v

/-- The main loop of `parseIPv6`: state is (remaining input, bytes filled
so far, next byte index, position of a `::` if seen). Returns the state at
loop exit, or `none` for the function's early `return nil`s. Fuel bounds
the recursion; each iteration consumes at least one input character, so
`s.length + 1` fuel is never exhausted. -/
def parseIPv6Loop : Nat → List Char → List Nat → Nat → Option Nat →
    Option (List Nat × Nat × Option Nat × List Char)
  | 0, _, _, _, _ => none
  | fuel + 1, s, ip, i, el =>
    if i ≥ 16 then some (ip, i, el, s)
    else
      let (n, c, ok) := xtoi s
      if !ok || n > 0xFFFF then none
      else if c < s.length && s.getD c ' ' == '.' then
        if (el.isNone && i ≠ 12) || i + 4 > 16 then none
        else
          match parseIPv4 s with
          | none => none
          | some ip4 =>
            let ip2 := ipSet (ipSet (ipSet (ipSet ip i (ipGet ip4 12))
              (i + 1) (ipGet ip4 13)) (i + 2) (ipGet ip4 14)) (i + 3) (ipGet ip4 15)
            some (ip2, i + 4, el, [])
      else
        let ip2 := ipSet (ipSet ip i (n / 256)) (i + 1) (n % 256)
        let i2 := i + 2
        let s2 := s.drop c
        if s2.isEmpty then some (ip2, i2, el, s2)
        else if s2.head? != some ':' || s2.length == 1 then none
        else
          let s3 := s2.tail
          if s3.head? == some ':' then
            if el.isSome then none
            else
              let s4 := s3.tail
              if s4.isEmpty then some (ip2, i2, some i2, s4)
              else parseIPv6Loop fuel s4 ip2 i2 (some i2)
          else parseIPv6Loop fuel s3 ip2 i2 el

/-- `parseIPv6`: leading `::` handling, the main loop, then ellipsis
expansion (`ip[j+n] = ip[j]` for `j = i-1 .. ellipsis`, zeros in between)
rendered as a position map over the 16 indices. -/
def parseIPv6 (s0 : List Char) : Option (List Nat) :=
  let ipInit := List.replicate 16 0
  let lead2 := s0.length ≥ 2 && s0.head? == some ':' && s0.tail.head? == some ':'
  let el0 : Option Nat := if lead2 then some 0 else none
  let s1 := if lead2 then s0.drop 2 else s0
  if lead2 && s1.isEmpty then some ipInit
  else
    match parseIPv6Loop (s1.length + 1) s1 ipInit 0 el0 with
    | none => none
    | some (ip, i, el, srem) =>
      if !srem.isEmpty then none
      else if i < 16 then
        match el with
        | none => none
        | some e =>
          let n := 16 - i
          some ((List.range 16).map fun k =>
            if k < e then ipGet ip k
            else if k < e + n then 0
            else ipGet ip (k - n))
      else if el.isSome then none
      else some ip

/-- `ParseIP`'s dispatch: scan for the first '.' or ':' character. -/
def parseIPKind : List Char → Option Bool
  | [] => none
  | c :: r => if c == '.' then some true else if c == ':' then some false else parseIPKind r

def ParseIP (s : String) : Option (List Nat) :=
  match parseIPKind s.toList with
  | some true => parseIPv4 s.toList
  | some false => parseIPv6 s.toList
  | none => none

/-- `IP.To4` (on a possibly-nil IP, as the decoders call it): a 4-byte IP
is returned as is; a 16-byte IP with the v4-in-v6 prefix is shortened;
anything else (including nil) gives nil. -/
def ipTo4 : Option (List Nat) → Option (List Nat)
  | none => none
  | some p =>
    if p.length == 4 then some p
    else if p.length == 16 && (p.take 10).all (· == 0) &&
        ipGet p 10 == 0xff && ipGet p 11 == 0xff then
      some (p.drop 12)
    else none

/-! ### responseparsers.go: the record decoders -/

/-- A produced `dns.RR`: header name, class and rrtype are determined by
the constructor; the A/AAAA payload is the (possibly nil) `net.IP`. -/
inductive RR where
  | txt (name : String) (ttl : Nat) (txtData : String)
  | a (name : String) (ttl : Nat) (ip : Option (List Nat))
  | aaaa (name : String) (ttl : Nat) (ip : Option (List Nat))
deriving Repr, DecidableEq

def RR.rrTTL : RR → Nat
  | .txt _ t _ => t
  | .a _ t _ => t
  | .aaaa _ t _ => t

/-- The per-line effective TTL: `rttl := l.TTL(); if rttl == 0 || rttl >
ttl { rttl = ttl }` — identical in all three decoders. -/
def lineTTLeff (base : Nat) (l : String) : Nat :=
  if recTTL l == 0 || recTTL l > base then base else recTTL l

/-- One iteration of `parseTXT`'s loop: the records the line contributes
(the Go locals `t`, `rttl` are inlined; they are pure). -/
def lineTXT (name : String) (base : Nat) (l : String) : List RR :=
  if recType l == "" || recType l == "TXT" then
    [RR.txt name (lineTTLeff base l) (recPayload l)]
  else []

/-- One iteration of `parseA`'s loop: the `continue` drops the line when
the type was unspecified and `ip.To4()` is nil (locals inlined). -/
def lineA (name : String) (base : Nat) (l : String) : List RR :=
  if recType l == "" || recType l == "A" then
    if recType l == "" && (ipTo4 (ParseIP (recPayload l))).isNone then []
    else [RR.a name (lineTTLeff base l) (ParseIP (recPayload l))]
  else []

/-- One iteration of `parseAAAA`'s loop: the `continue` drops the line
when the type was unspecified and `ip.To4()` is non-nil. -/
def lineAAAA (name : String) (base : Nat) (l : String) : List RR :=
  if recType l == "" || recType l == "AAAA" then
    if recType l == "" && (ipTo4 (ParseIP (recPayload l))).isSome then []
    else [RR.aaaa name (lineTTLeff base l) (ParseIP (recPayload l))]
  else []

/-- `parseTXT`: the loop appends each line's records in order (rendered as
`bind`) and the function returns `rrs, nil`. -/
def parseTXT (name : String) (ttl : Nat) (response : String) : List RR × Option String :=
  ((parseLines response).flatMap (lineTXT name ttl), none)

def parseA (name : String) (ttl : Nat) (response : String) : List RR × Option String :=
  ((parseLines response).flatMap (lineA name ttl), none)

def parseAAAA (name : String) (ttl : Nat) (response : String) : List RR × Option String :=
  ((parseLines response).flatMap (lineAAAA name ttl), none)

/-- `responseToRR`: the type-string → decoder map in httprecord.go. -/
def responseToRR (t : String) :
    Option (String → Nat → String → List RR × Option String) :=
  if t == "TXT" then some parseTXT
  else if t == "A" then some parseA
  else if t == "AAAA" then some parseAAAA
  else none

/-! ### httprecord.go: extractTTL -/

/-- `\s` of Go's regexp syntax: `[\t\n\f\r ]`. -/
def regexSpaceChar (c : Char) : Bool :=
  c == '\t' || c == '\n' || c == '\x0c' || c == '\r' || c == ' '

/-- The literal `max-age:` of `cacheControlRegex`. -/
def maxAgeLit : List Char := ['m', 'a', 'x', '-', 'a', 'g', 'e', ':']

/-- Leftmost match of `cacheControlRegex = max-age:[\s]*([\d]+)`: at each
position the literal `max-age:` must match, then any whitespace, then at
least one digit; the capture is the maximal digit run (the classes `\s`
and `\d` are disjoint, so the greedy match needs no backtracking). -/
def maxAgeScan : List Char → Option (List Char)
  | [] => none
  | c :: rest =>
    if (c :: rest).take 8 == maxAgeLit then
      let ds := (((c :: rest).drop 8).dropWhile regexSpaceChar).takeWhile Char.isDigit
      if ds.isEmpty then maxAgeScan rest else some ds
    else maxAgeScan rest

/-- The candidate TTL `extractTTL` reads from the `Cache-Control` header:
the captured digits through `strconv.Atoi` and `uint32(n)`, kept only when
`err == nil`; 0 when the regex does not match. -/
def maxAgeCandidate (cc : String) : Nat :=
  match maxAgeScan cc.toList with
  | none => 0
  | some ds =>
    match goAtoi (String.mk ds) with
    | (n, true) => intToUInt32 n
    | (_, false) => 0

/-- `extractTTL` (the `h.MaxTTL` field is the first argument). -/
def extractTTL (maxTTL : Nat) (cc : String) : Nat :=
  let ttl := maxAgeCandidate cc
  if ttl > 0 && (maxTTL == 0 || maxTTL > ttl) then ttl
  else if maxTTL > 0 then maxTTL
  else 3600

/-! ### httprecord.go: fetch, fallback cache, orchestration -/

/-- The errors `fetch` can return, keeping exactly the distinction
`fetchAndWrite` observes: `BackendIndicatedError` (with its HTTP and DNS
codes) versus everything else. -/
inductive FetchError where
  /-- `client.Get` failure or a non-EOF `Body.Read` failure. -/
  | network (detail : String)
  /-- "backend returned a body longer than 4095 bytes". -/
  | tooLong
  /-- `BackendIndicatedError{HTTPResponseCode, DNSResponseCode}`. -/
  | backendIndicated (httpCode dnsCode : Nat)
  /-- "unexpected status code: %d". -/
  | unexpectedStatus (code : Nat)
deriving Repr, DecidableEq

/-- What the network returned for one `client.Get`: whether the GET
failed, the bytes the single `Body.Read` call produced, whether that read
ended in a non-EOF error, and the response's status code and
`Cache-Control` header. Go's `Read` fills a 4096-byte buffer, so
`bodyBytes` is at most 4096 bytes on any real execution. -/
structure FetchInput where
  getErr : Bool
  bodyBytes : String
  readErr : Bool
  statusCode : Nat
  cacheControl : String
deriving Repr, DecidableEq

def MaxHTTPBodySize : Nat := 4096

/-- `HTTPRecord.fetch` after the GET: the `(payload, ttl, err)` triple.
The URI template substitution and the timeout only shape the request
itself, which is abstracted into `FetchInput`. -/
def fetch (maxTTL : Nat) (fi : FetchInput) : String × Nat × Option FetchError :=
  if fi.getErr then ("", 0, some (.network "get"))
  else if fi.readErr then ("", 0, some (.network "read"))
  else if fi.bodyBytes.length == MaxHTTPBodySize then
    (fi.bodyBytes, 0, some .tooLong)
  else
    let ttl := extractTTL maxTTL fi.cacheControl
    if fi.statusCode == 200 then (fi.bodyBytes, ttl, none)
    else if fi.statusCode == 404 then ("", 0, some (.backendIndicated 404 3))
    else if fi.statusCode ≥ 500 then
      ("", 0, some (.backendIndicated fi.statusCode 2))
    else ("", 0, some (.unexpectedStatus fi.statusCode))

/-- `cacheItem` in httprecord.go. -/
structure CacheItem where
  payload : String
  ttl : Nat
deriving Repr, DecidableEq

/-- The coredns `cache.Cache` at its `Add`/`Get` interface: a key-value
store over `uint64` keys (capacity and eviction do not matter for a single
key's add-then-get and are not modelled). -/
def CacheState := List (Nat × CacheItem)

def cacheAdd (c : CacheState) (k : Nat) (it : CacheItem) : CacheState :=
  (k, it) :: (c.filter fun p => p.1 ≠ k)

def cacheGet (c : CacheState) (k : Nat) : Option CacheItem :=
  (List.find? (fun p => p.1 == k) c).map (·.2)

/-- FNV-1 64-bit over a byte list (`hash/fnv`, `fnv.New64`): multiply by
the prime, then xor the byte, modulo 2^64. -/
def fnv64 (bytes : List Nat) : Nat :=
  bytes.foldl (fun h b => ((h * 1099511628211) % 2 ^ 64) ^^^ (b % 256))
    14695981039346656037

/-- UTF-8 encoding of one character (Go strings are UTF-8 byte slices). -/
def utf8Bytes (c : Char) : List Nat :=
  let n := c.toNat
  if n < 0x80 then [n]
  else if n < 0x800 then
    [0xC0 ||| (n >>> 6), 0x80 ||| (n &&& 0x3F)]
  else if n < 0x10000 then
    [0xE0 ||| (n >>> 12), 0x80 ||| ((n >>> 6) &&& 0x3F), 0x80 ||| (n &&& 0x3F)]
  else
    [0xF0 ||| (n >>> 18), 0x80 ||| ((n >>> 12) &&& 0x3F),
     0x80 ||| ((n >>> 6) &&& 0x3F), 0x80 ||| (n &&& 0x3F)]

def strBytes (s : String) : List Nat := s.toList.flatMap utf8Bytes

/-- The cache key of `maybeFetchCached`: FNV-1 64 over the bytes of the
query name followed by the bytes of the endpoint URI. -/
def cachekey (name uri : String) : Nat := fnv64 (strBytes name ++ strBytes uri)

/-- The configured plugin state that the modelled operations read
(`HTTPRecord` minus the handler chain and the live cache pointer; the
cache contents travel separately as a `CacheState`). A `Record` is its
`(Name, Type, URI)` triple, a `Zone` its `(Origin, URI)` pair, and
`fallZones` is the zone list inside `fall.F`. -/
structure HRec where
  records : List (String × String × String)
  zones : List (String × String)
  maxTTL : Nat
  returnCachedOnError : Bool
  fallZones : List String

/-- `HTTPRecord.maybeFetchCached`: pass-through when fallback caching is
off; otherwise store on success under `cachekey`, and on failure return a
cached entry as a success, or the failure unchanged when there is none. -/
def maybeFetchCached (h : HRec) (cache : CacheState) (name uri : String)
    (fi : FetchInput) : (String × Nat × Option FetchError) × CacheState :=
  if !h.returnCachedOnError then (fetch h.maxTTL fi, cache)
  else
    let key := cachekey name uri
    match fetch h.maxTTL fi with
    | (payload, ttl, none) =>
      ((payload, ttl, none), cacheAdd cache key ⟨payload, ttl⟩)
    | (payload, ttl, some e) =>
      match cacheGet cache key with
      | some item => ((item.payload, item.ttl, none), cache)
      | none => ((payload, ttl, some e), cache)

/-- The error `fetchAndWrite` returns alongside its rcode. -/
inductive ServeError where
  | fetchFail (e : FetchError)
  /-- "unable to find response parser for: %s". -/
  | noDecoder (t : String)
  /-- A decoder returned a non-nil error. -/
  | decodeFail (msg : String)
deriving Repr, DecidableEq

/-- What `fetchAndWrite` produces: its `(int, error)` return value and, on
the success path, the answer section written through the ResponseWriter
(`none` when no message was written). -/
structure WriteOutcome where
  rcode : Nat
  errv : Option ServeError
  answer : Option (List RR)
deriving Repr, DecidableEq

/-- `HTTPRecord.fetchAndWrite`: dns.RcodeSuccess = 0, RcodeServerFailure
= 2; a `BackendIndicatedError` keeps its own DNS rcode. -/
def fetchAndWrite (h : HRec) (cache : CacheState) (rtype name uri : String)
    (fi : FetchInput) : WriteOutcome × CacheState :=
  match maybeFetchCached h cache name uri fi with
  | ((_payload, _ttl, some e), cache2) =>
    match e with
    | .backendIndicated _ dnsCode =>
      (⟨dnsCode, some (.fetchFail e), none⟩, cache2)
    | _ => (⟨2, some (.fetchFail e), none⟩, cache2)
  | ((payload, ttl, none), cache2) =>
    match responseToRR rtype with
    | none => (⟨2, some (.noDecoder rtype), none⟩, cache2)
    | some decoder =>
      match decoder name ttl payload with
      | (_, some m) => (⟨2, some (.decodeFail m), none⟩, cache2)
      | (rrs, none) => (⟨0, none, some rrs⟩, cache2)

/-! ### httprecord.go: ServeDNS dispatch -/

/-- ASCII lower-casing, for the case-insensitive label comparison of
`dns.CompareDomainName`. -/
def asciiLower (c : Char) : Char :=
  if 'A' ≤ c && c ≤ 'Z' then Char.ofNat (c.toNat + 32) else c

/-- The labels of a domain name, lower-cased, root and empty labels
dropped (the names the plugin compares are ordinary dotted FQDNs). -/
def domainLabels (s : String) : List String :=
  ((splitOnChar '.' (s.toList.map asciiLower)).map String.mk).filter (· != "")

/-- `plugin.Name.Matches`: exact equality, or `dns.IsSubDomain` — the
zone's labels are a suffix of the query name's labels. -/
def nameMatches (zone qname : String) : Bool :=
  zone == qname || (domainLabels zone).isSuffixOf (domainLabels qname)

/-- `plugin.Zones.Matches`: the matching origin of greatest length, `""`
when none matches. -/
def zonesMatches (origins : List String) (qname : String) : String :=
  origins.foldl
    (fun acc z => if nameMatches z qname && z.length > acc.length then z else acc) ""

/-- `fall.F.Through`. -/
def fallThrough (zs : List String) (qname : String) : Bool :=
  zonesMatches zs qname != ""

/-- What `ServeDNS` decides to do for a query before any fetch happens. -/
inductive ServeAction where
  /-- `plugin.NextOrFailure`: hand the query to the next plugin. -/
  | fallNext
  /-- `nodata`: write an authoritative empty answer. -/
  | emptyAnswer
  /-- `h.fetchAndWrite(w, r, rtype, name, uri)`. -/
  | fetchWrite (rtype name uri : String)
deriving Repr, DecidableEq

/-- The dispatch logic of `HTTPRecord.ServeDNS`: unsupported type →
fallthrough/NODATA; exact record match (first wins) → fetch that record's
URI; else zone match — and note the inner `for` loop returns on its first
iteration, so any match fetches with the *first configured* zone's URI. -/
def serveDNSAction (h : HRec) (qname qtype : String) : ServeAction :=
  if (responseToRR qtype).isNone then
    if fallThrough h.fallZones qname then .fallNext else .emptyAnswer
  else
    match h.records.find? (fun r => r.1 == qname && r.2.1 == qtype) with
    | some r => .fetchWrite qtype qname r.2.2
    | none =>
      let zone := zonesMatches (h.zones.map (·.1)) qname
      if zone != "" then
        match h.zones with
        | z :: _ => .fetchWrite qtype qname z.2
        | [] =>
          if fallThrough h.fallZones qname then .fallNext else .emptyAnswer
      else if fallThrough h.fallZones qname then .fallNext else .emptyAnswer

/-! ### Shared lemmas -/

theorem lineTTLeff_le (b : Nat) (l : String) : lineTTLeff b l ≤ b := by
  unfold lineTTLeff
  split
  · exact Nat.le_refl b
  · next hcond =>
    simp only [Bool.or_eq_true, beq_iff_eq, decide_eq_true_eq, not_or] at hcond
    omega

theorem rrTTL_of_mem_lineTXT {name : String} {b : Nat} {l : String} {rr : RR}
    (h : rr ∈ lineTXT name b l) : rr.rrTTL = lineTTLeff b l := by
  unfold lineTXT at h
  split at h
  · simp only [List.mem_singleton] at h
    subst h
    rfl
  · simp at h

theorem rrTTL_of_mem_lineA {name : String} {b : Nat} {l : String} {rr : RR}
    (h : rr ∈ lineA name b l) : rr.rrTTL = lineTTLeff b l := by
  unfold lineA at h
  split at h
  · split at h
    · simp at h
    · simp only [List.mem_singleton] at h
      subst h
      rfl
  · simp at h

theorem rrTTL_of_mem_lineAAAA {name : String} {b : Nat} {l : String} {rr : RR}
    (h : rr ∈ lineAAAA name b l) : rr.rrTTL = lineTTLeff b l := by
  unfold lineAAAA at h
  split at h
  · split at h
    · simp at h
    · simp only [List.mem_singleton] at h
      subst h
      rfl
  · simp at h

/-- A line with no recognized explicit type has explicit TTL 0 (the TTL
accessor requires a leading type keyword). -/
theorem recTTL_of_recType_empty {l : String} (h : recType l = "") :
    recTTL l = 0 := by
  unfold recType at h
  unfold recTTL
  split
  · next hcond =>
    exfalso
    simp only [Bool.and_eq_true, decide_eq_true_eq] at hcond
    have h2 : (decide (2 ≤ (fields l).length) &&
        isType (String.mk ((fields l).headD []))) = true := by
      simp only [Bool.and_eq_true, decide_eq_true_eq]
      exact ⟨by omega, hcond.2⟩
    rw [if_pos h2] at h
    have ht0 : (fields l).headD [] = [] := congrArg String.data h
    rw [ht0] at hcond
    exact absurd hcond.2 (by decide)
  · rfl

/-- Every decoder `responseToRR` can return produces a nil error. -/
theorem decoder_snd_none {t : String}
    {d : String → Nat → String → List RR × Option String}
    (h : responseToRR t = some d) (nm : String) (b : Nat) (resp : String) :
    (d nm b resp).2 = none := by
  unfold responseToRR at h
  split_ifs at h <;> injection h with h <;> subst h <;> rfl

/-! ### The claims -/

/-- C1: for every decoder invocation with base TTL `b`, every emitted
record's TTL is the line's explicit TTL unless that is 0 (absent) or
greater than `b`, in which case it is `b`; consequently every emitted
record's TTL is at most `b`. -/
theorem ttlCapPerLine (name : String) (b : Nat) (resp : String) (rr : RR)
    (hmem : rr ∈ (parseTXT name b resp).1 ∨ rr ∈ (parseA name b resp).1 ∨
      rr ∈ (parseAAAA name b resp).1) :
    (∃ l ∈ parseLines resp,
      rr.rrTTL = if recTTL l == 0 || recTTL l > b then b else recTTL l) ∧
    rr.rrTTL ≤ b := by
  have key : ∃ l ∈ parseLines resp, rr.rrTTL = lineTTLeff b l := by
    rcases hmem with h | h | h
    · simp only [parseTXT] at h
      rcases List.mem_flatMap.mp h with ⟨l, hl, hrr⟩
      exact ⟨l, hl, rrTTL_of_mem_lineTXT hrr⟩
    · simp only [parseA] at h
      rcases List.mem_flatMap.mp h with ⟨l, hl, hrr⟩
      exact ⟨l, hl, rrTTL_of_mem_lineA hrr⟩
    · simp only [parseAAAA] at h
      rcases List.mem_flatMap.mp h with ⟨l, hl, hrr⟩
      exact ⟨l, hl, rrTTL_of_mem_lineAAAA hrr⟩
  rcases key with ⟨l, hl, he⟩
  exact ⟨⟨l, hl, by rw [he]; rfl⟩, by rw [he]; exact lineTTLeff_le b l⟩

/-- Witness for C1: in a TXT decode with base TTL 100 of the line
`TXT 50 hi`, the emitted record carries TTL 50 = the explicit TTL. -/
theorem ttlCapPerLine_w :
    (∃ l ∈ parseLines "TXT 50 hi",
      (RR.txt "x." 50 "hi").rrTTL =
        if recTTL l == 0 || recTTL l > 100 then 100 else recTTL l) ∧
    (RR.txt "x." 50 "hi").rrTTL ≤ 100 :=
  ttlCapPerLine "x." 100 "TXT 50 hi" (RR.txt "x." 50 "hi") (Or.inl (by decide))

/-- C2: with fallback caching enabled, a successful fetch stores
`{payload, ttl}` under the hash of (name, endpoint) and returns the fetch
result unchanged; a failing fetch with a stored entry returns the cached
pair with no error; a failing fetch with no stored entry propagates the
failure unchanged; with fallback caching disabled, the fetch result (and
so any failure) is passed through untouched. -/
theorem fallbackCacheSpec (h : HRec) (cache : CacheState) (name uri : String)
    (fi : FetchInput) :
    (h.returnCachedOnError = false →
      maybeFetchCached h cache name uri fi = (fetch h.maxTTL fi, cache)) ∧
    (h.returnCachedOnError = true →
      (∀ payload ttl, fetch h.maxTTL fi = (payload, ttl, none) →
        maybeFetchCached h cache name uri fi =
          ((payload, ttl, none),
            cacheAdd cache (cachekey name uri) ⟨payload, ttl⟩)) ∧
      (∀ payload ttl e item, fetch h.maxTTL fi = (payload, ttl, some e) →
        cacheGet cache (cachekey name uri) = some item →
        maybeFetchCached h cache name uri fi =
          ((item.payload, item.ttl, none), cache)) ∧
      (∀ payload ttl e, fetch h.maxTTL fi = (payload, ttl, some e) →
        cacheGet cache (cachekey name uri) = none →
        maybeFetchCached h cache name uri fi =
          ((payload, ttl, some e), cache))) := by
  refine ⟨fun hoff => ?_, fun hon => ⟨?_, ?_, ?_⟩⟩
  · simp [maybeFetchCached, hoff]
  · intro payload ttl hf
    simp [maybeFetchCached, hon, hf]
  · intro payload ttl e item hf hc
    simp [maybeFetchCached, hon, hf, hc]
  · intro payload ttl e hf hc
    simp [maybeFetchCached, hon, hf, hc]

/-- C3: the code at the failing input. With two configured zones whose
origins differ, a query matching only the *second* zone's origin is
nevertheless fetched via the *first* zone's URI: the inner `for` loop of
`ServeDNS` returns on its first iteration, discarding the matched zone it
just computed (and logged). The second conjunct shows the zone matcher
did select the second origin. -/
theorem zoneChoiceAtBugInput :
    serveDNSAction
        ⟨[], [("a.example.", "http://one/"), ("b.example.", "http://two/")],
          0, false, []⟩
        "x.b.example." "A" =
      ServeAction.fetchWrite "A" "x.b.example." "http://one/" ∧
    zonesMatches ["a.example.", "b.example."] "x.b.example." = "b.example." := by
  decide

/-- C4 counterexample: a line whose payload does not parse as an IP is
*not* always dropped. With an explicit `A` keyword the A decoder emits a
record whose address is nil, and the AAAA decoder emits a nil-address
record both for an explicit `AAAA` keyword and for a type-less
unparsable line. -/
theorem unparsableLineEmitsRecord :
    (parseA "x." 300 "A nonsense").1 = [RR.a "x." 300 none] ∧
    (parseA "x." 300 "A nonsense").1 ≠ [] ∧
    (parseAAAA "x." 300 "AAAA nonsense").1 = [RR.aaaa "x." 300 none] ∧
    (parseAAAA "x." 300 "nonsense").1 = [RR.aaaa "x." 300 none] := by
  decide

/-- C4 as amended: only the A decoder drops unparsable lines, and only
when the line has no explicit type. A line with an explicit `A` (resp.
`AAAA`) keyword and an unparsable payload yields a record with a nil
address; a type-less unparsable line also yields a nil-address AAAA
record. No case produces an error. -/
theorem unparsableLinePolicy (name : String) (b : Nat) (l : String)
    (hp : ParseIP (recPayload l) = none) :
    (recType l = "" → lineA name b l = [] ∧
      lineAAAA name b l = [RR.aaaa name (lineTTLeff b l) none]) ∧
    (recType l = "A" → lineA name b l = [RR.a name (lineTTLeff b l) none]) ∧
    (recType l = "AAAA" →
      lineAAAA name b l = [RR.aaaa name (lineTTLeff b l) none]) ∧
    (parseA name b l).2 = none ∧ (parseAAAA name b l).2 = none := by
  refine ⟨fun ht => ?_, fun ht => ?_, fun ht => ?_, rfl, rfl⟩
  · constructor
    · simp [lineA, ht, hp, ipTo4]
    · simp [lineAAAA, ht, hp, ipTo4]
  · simp [lineA, ht, hp]
  · simp [lineAAAA, ht, hp]

/-- Witness for the amended C4: the line `A nonsense` (explicit type,
unparsable payload) makes the A decoder emit a nil-address record. -/
theorem unparsableLinePolicy_w :
    lineA "x." 300 "A nonsense" = [RR.a "x." 300 none] := by
  have h := (unparsableLinePolicy "x." 300 "A nonsense" (by decide)).2.1 (by decide)
  rw [h]
  decide

/-- A 4096-byte body, for exercising the byte ceiling. -/
def bigBody : String := String.mk (List.replicate 4096 'a')

theorem string_mk_length (cs : List Char) : (String.mk cs).length = cs.length := rfl

theorem bigBody_length : bigBody.length = MaxHTTPBodySize := by
  unfold bigBody MaxHTTPBodySize
  rw [string_mk_length, List.length_replicate]

/-- C5: whenever exactly `MaxHTTPBodySize` (4096) bytes were read from
the response body, `fetch` returns an error regardless of the status code
(including 200); and any records `fetchAndWrite` still emits after such a
fetch are decoded from a previously cached payload, never from the
partial body. -/
theorem bodyCeilingFails (h : HRec) (cache : CacheState) (rtype name uri : String)
    (fi : FetchInput) (hget : fi.getErr = false)
    (hlen : fi.bodyBytes.length = MaxHTTPBodySize) :
    (fetch h.maxTTL fi).2.2 ≠ none ∧
    ∀ rrs, (fetchAndWrite h cache rtype name uri fi).1.answer = some rrs →
      ∃ item decoder, cacheGet cache (cachekey name uri) = some item ∧
        responseToRR rtype = some decoder ∧
        rrs = (decoder name item.ttl item.payload).1 := by
  have hfe : (fetch h.maxTTL fi).2.2 ≠ none := by
    unfold fetch
    rw [hget]
    cases hr : fi.readErr
    · simp [hr, hlen]
    · simp [hr]
  refine ⟨hfe, ?_⟩
  intro rrs hans
  rcases hfetch : fetch h.maxTTL fi with ⟨p0, t0, r0⟩
  cases r0 with
  | none => rw [hfetch] at hfe; simp at hfe
  | some e0 =>
    unfold fetchAndWrite at hans
    cases hc : h.returnCachedOnError with
    | false =>
      have hm : maybeFetchCached h cache name uri fi = ((p0, t0, some e0), cache) := by
        simp [maybeFetchCached, hc, hfetch]
      rw [hm] at hans
      cases e0 <;> simp at hans
    | true =>
      cases hcg : cacheGet cache (cachekey name uri) with
      | none =>
        have hm : maybeFetchCached h cache name uri fi = ((p0, t0, some e0), cache) := by
          simp [maybeFetchCached, hc, hfetch, hcg]
        rw [hm] at hans
        cases e0 <;> simp at hans
      | some item =>
        have hm : maybeFetchCached h cache name uri fi =
            ((item.payload, item.ttl, none), cache) := by
          simp [maybeFetchCached, hc, hfetch, hcg]
        rw [hm] at hans
        cases hresp : responseToRR rtype with
        | none => rw [hresp] at hans; simp at hans
        | some decoder =>
          rw [hresp] at hans
          have hnone := decoder_snd_none hresp name item.ttl item.payload
          rcases hdec : decoder name item.ttl item.payload with ⟨rrs0, err0⟩
          rw [hdec] at hnone
          cases err0 with
          | none =>
            simp only [hdec, Option.some.injEq] at hans
            refine ⟨item, decoder, rfl, rfl, ?_⟩
            rw [hdec]
            exact hans.symm
          | some m => simp at hnone

/-- A configuration with no records, no zones, no max TTL and fallback
caching off. -/
def hPlain : HRec := ⟨[], [], 0, false, []⟩

/-- Witness for C5: a 200 response whose body read filled all 4096 bytes
still yields a fetch error. -/
theorem bodyCeilingFails_w :
    (fetch hPlain.maxTTL ⟨false, bigBody, false, 200, ""⟩).2.2 ≠ none :=
  (bodyCeilingFails hPlain [] "TXT" "n." "u"
    ⟨false, bigBody, false, 200, ""⟩ rfl bigBody_length).1

/-- With fallback caching off, `fetchAndWrite` maps a failing fetch's
error to its rcode: a `BackendIndicatedError` keeps its DNS code, every
other error becomes server failure (2). -/
theorem fetchAndWrite_rcode_of_fetch_err (h : HRec) (cache : CacheState)
    (rtype name uri : String) (fi : FetchInput)
    (hc : h.returnCachedOnError = false) (p : String) (t : Nat) (e : FetchError)
    (hf : fetch h.maxTTL fi = (p, t, some e)) :
    (fetchAndWrite h cache rtype name uri fi).1.rcode =
      (match e with
       | FetchError.backendIndicated _ dc => dc
       | _ => 2) := by
  have hm : maybeFetchCached h cache name uri fi = ((p, t, some e), cache) := by
    simp [maybeFetchCached, hc, hf]
  unfold fetchAndWrite
  rw [hm]
  cases e <;> rfl

/-- C6: for a fetch whose body stays under the ceiling and that hits no
network error: status 200 yields the body and derived TTL with no error;
404 yields the name-error-mapped failure (rcode 3 when surfaced); ≥ 500
the server-failure-mapped failure (rcode 2); any other status a generic
error surfaced by `fetchAndWrite` as server failure (rcode 2). -/
theorem statusClassification (h : HRec) (cache : CacheState)
    (rtype name uri : String) (fi : FetchInput) (hget : fi.getErr = false)
    (hread : fi.readErr = false)
    (hlen : fi.bodyBytes.length < MaxHTTPBodySize) :
    (fi.statusCode = 200 →
      fetch h.maxTTL fi =
        (fi.bodyBytes, extractTTL h.maxTTL fi.cacheControl, none)) ∧
    (fi.statusCode = 404 →
      fetch h.maxTTL fi = ("", 0, some (FetchError.backendIndicated 404 3)) ∧
      (h.returnCachedOnError = false →
        (fetchAndWrite h cache rtype name uri fi).1.rcode = 3)) ∧
    (500 ≤ fi.statusCode →
      fetch h.maxTTL fi =
        ("", 0, some (FetchError.backendIndicated fi.statusCode 2)) ∧
      (h.returnCachedOnError = false →
        (fetchAndWrite h cache rtype name uri fi).1.rcode = 2)) ∧
    (fi.statusCode ≠ 200 → fi.statusCode ≠ 404 → fi.statusCode < 500 →
      fetch h.maxTTL fi =
        ("", 0, some (FetchError.unexpectedStatus fi.statusCode)) ∧
      (h.returnCachedOnError = false →
        (fetchAndWrite h cache rtype name uri fi).1.rcode = 2)) := by
  have hne : fi.bodyBytes.length ≠ MaxHTTPBodySize := Nat.ne_of_lt hlen
  refine ⟨fun hs => ?_, fun hs => ?_, fun hs => ?_, fun hx hy hz => ?_⟩
  · simp [fetch, hget, hread, hne, hs]
  · have hf : fetch h.maxTTL fi = ("", 0, some (FetchError.backendIndicated 404 3)) := by
      simp [fetch, hget, hread, hne, hs]
    exact ⟨hf, fun hcoff =>
      fetchAndWrite_rcode_of_fetch_err h cache rtype name uri fi hcoff _ _ _ hf⟩
  · have hx : fi.statusCode ≠ 200 := by omega
    have hy : fi.statusCode ≠ 404 := by omega
    have hf : fetch h.maxTTL fi =
        ("", 0, some (FetchError.backendIndicated fi.statusCode 2)) := by
      simp [fetch, hget, hread, hne, hx, hy, hs]
    exact ⟨hf, fun hcoff =>
      fetchAndWrite_rcode_of_fetch_err h cache rtype name uri fi hcoff _ _ _ hf⟩
  · have hz2 : ¬ 500 ≤ fi.statusCode := by omega
    have hf : fetch h.maxTTL fi =
        ("", 0, some (FetchError.unexpectedStatus fi.statusCode)) := by
      simp [fetch, hget, hread, hne, hx, hy, hz2]
    exact ⟨hf, fun hcoff =>
      fetchAndWrite_rcode_of_fetch_err h cache rtype name uri fi hcoff _ _ _ hf⟩

/-- Witness for C6: a clean 404 response maps to the backend-indicated
error with DNS rcode 3, and `fetchAndWrite` surfaces rcode 3. -/
theorem statusClassification_w :
    fetch hPlain.maxTTL ⟨false, "", false, 404, ""⟩ =
      ("", 0, some (FetchError.backendIndicated 404 3)) ∧
    (fetchAndWrite hPlain [] "TXT" "n." "u" ⟨false, "", false, 404, ""⟩).1.rcode = 3 := by
  have h := (statusClassification hPlain [] "TXT" "n." "u"
    ⟨false, "", false, 404, ""⟩ rfl rfl (by decide)).2.1 rfl
  exact ⟨h.1, h.2 rfl⟩

/-- C7: `extractTTL` returns the Cache-Control max-age candidate when it
is positive and either no max TTL is configured or the candidate is below
it; otherwise the configured max TTL when positive; otherwise 3600. In
particular, with no parsable max-age and no configured max TTL the base
TTL is exactly 3600. -/
theorem extractTTLPolicy (maxTTL : Nat) (cc : String) :
    extractTTL maxTTL cc =
      (if 0 < maxAgeCandidate cc ∧ (maxTTL = 0 ∨ maxAgeCandidate cc < maxTTL)
       then maxAgeCandidate cc
       else if 0 < maxTTL then maxTTL else 3600) ∧
    (maxAgeCandidate cc = 0 → maxTTL = 0 → extractTTL maxTTL cc = 3600) := by
  constructor
  · simp only [extractTTL, Bool.and_eq_true, Bool.or_eq_true, beq_iff_eq,
      decide_eq_true_eq, gt_iff_lt]
  · intro h0 hm
    simp [extractTTL, h0, hm]

/-- C8: a type-less line whose payload is a valid IP literal goes to
exactly one family decoder — the A decoder when `To4` succeeds
(IPv4-form), the AAAA decoder otherwise — and the emitted record carries
the base TTL (a type-less line has no explicit TTL). -/
theorem typelessFamilySplit (name : String) (b : Nat) (l : String)
    (ip : List Nat) (ht : recType l = "")
    (hp : ParseIP (recPayload l) = some ip) :
    ((ipTo4 (some ip)).isSome →
      lineA name b l = [RR.a name b (some ip)] ∧ lineAAAA name b l = []) ∧
    (ipTo4 (some ip) = none →
      lineAAAA name b l = [RR.aaaa name b (some ip)] ∧ lineA name b l = []) := by
  have httl : lineTTLeff b l = b := by
    simp [lineTTLeff, recTTL_of_recType_empty ht]
  constructor
  · intro h4
    obtain ⟨v, hv⟩ := Option.isSome_iff_exists.mp h4
    constructor
    · simp [lineA, ht, hp, hv, httl]
    · simp [lineAAAA, ht, hp, hv]
  · intro h0
    constructor
    · simp [lineAAAA, ht, hp, h0, httl]
    · simp [lineA, ht, hp, h0]

/-- Witness for C8: the type-less line `1.2.3.4` is included by the A
decoder (as the v4-in-v6 16-byte address) and excluded by the AAAA
decoder. -/
theorem typelessFamilySplit_w :
    lineA "x." 200 "1.2.3.4" =
      [RR.a "x." 200 (some [0, 0, 0, 0, 0, 0, 0, 0, 0, 0, 255, 255, 1, 2, 3, 4])] ∧
    lineAAAA "x." 200 "1.2.3.4" = [] :=
  (typelessFamilySplit "x." 200 "1.2.3.4"
    [0, 0, 0, 0, 0, 0, 0, 0, 0, 0, 255, 255, 1, 2, 3, 4]
    (by decide) (by decide)).1 (by decide)

/-- C9 counterexample: type-keyword recognition is case-sensitive, not
case-insensitive. The line `txt hello` has a first token that equals the
recognized keyword `TXT` under case-insensitive comparison and a further
token, yet the parser does not recognize it as the explicit type (it
returns `""`, and `"txt"` itself is not a keyword of the map). -/
theorem lowercaseTypeNotRecognized :
    recType "txt hello" = "" ∧ recType "txt hello" ≠ "txt" ∧
    isType "TXT" = true ∧ isType "txt" = false := by
  decide

/-- C9 as amended: only an *exact* (case-sensitive) match of the first
token against a `dns.StringToType` keyword, together with at least one
further token, makes it the line's explicit type; otherwise the explicit
type is empty. -/
theorem typeKeywordExact (l : String) (t : List Char) (r : List (List Char))
    (hs : fields l = t :: r) :
    (isType (String.mk t) = true → r ≠ [] → recType l = String.mk t) ∧
    (isType (String.mk t) = false → recType l = "") ∧
    (r = [] → recType l = "") := by
  refine ⟨fun hT hr => ?_, fun hT => ?_, fun hr => ?_⟩
  · have hlen : 2 ≤ (fields l).length := by
      rw [hs]
      cases r with
      | nil => exact absurd rfl hr
      | cons a as => simp
    unfold recType
    rw [if_pos (by
      simp only [Bool.and_eq_true, decide_eq_true_eq]
      exact ⟨hlen, by rw [hs]; exact hT⟩)]
    rw [hs]
    rfl
  · unfold recType
    rw [if_neg (by
      simp only [Bool.and_eq_true, decide_eq_true_eq, not_and]
      intro _
      rw [hs]
      simp [hT])]
  · subst hr
    unfold recType
    rw [if_neg (by
      simp only [Bool.and_eq_true, decide_eq_true_eq, not_and]
      intro hlen
      rw [hs] at hlen
      simp at hlen)]

/-- Witness for the amended C9: the first token of `TXT hello` is the
keyword `TXT` and a further token follows, so it is the explicit type. -/
theorem typeKeywordExact_w : recType "TXT hello" = "TXT" :=
  (typeKeywordExact "TXT hello" ['T', 'X', 'T'] [['h', 'e', 'l', 'l', 'o']]
    (by decide)).1 (by decide) (by decide)

/-- C10: all three decoders return a nil error on every input, so the
decoder-error branch of `fetchAndWrite` (and, for the supported types,
the missing-decoder branch) is unreachable: any error `fetchAndWrite`
returns for a supported type comes from the fetch. -/
theorem decodersNeverError (h : HRec) (cache : CacheState)
    (rtype name uri : String) (fi : FetchInput) (nm resp : String) (b : Nat)
    (hr : rtype = "TXT" ∨ rtype = "A" ∨ rtype = "AAAA") :
    (parseTXT nm b resp).2 = none ∧ (parseA nm b resp).2 = none ∧
    (parseAAAA nm b resp).2 = none ∧
    ∀ e, (fetchAndWrite h cache rtype name uri fi).1.errv = some e →
      ∃ fe, e = ServeError.fetchFail fe := by
  refine ⟨rfl, rfl, rfl, fun e he => ?_⟩
  unfold fetchAndWrite at he
  rcases hm : maybeFetchCached h cache name uri fi with ⟨⟨p0, t0, r0⟩, c2⟩
  rw [hm] at he
  cases r0 with
  | some e0 =>
    cases e0 <;> simp only [Option.some.injEq] at he <;> exact ⟨_, he.symm⟩
  | none =>
    have hresp : ∃ d, responseToRR rtype = some d := by
      rcases hr with hr | hr | hr <;> rw [hr] <;> exact ⟨_, rfl⟩
    rcases hresp with ⟨d, hd⟩
    rw [hd] at he
    have hnone := decoder_snd_none hd name t0 p0
    rcases hdec : d name t0 p0 with ⟨rrs0, err0⟩
    rw [hdec] at hnone
    cases err0 with
    | none => simp [hdec] at he
    | some m => simp at hnone

/-- Witness for C10: for the supported type `TXT`, a failing fetch
surfaces only a fetch error (here the 404 backend error). -/
theorem decodersNeverError_w :
    ∃ fe, ServeError.fetchFail (FetchError.backendIndicated 404 3) =
      ServeError.fetchFail fe :=
  (decodersNeverError hPlain [] "TXT" "n." "u" ⟨false, "", false, 404, ""⟩
    "m." "body" 60 (Or.inl rfl)).2.2.2
    (ServeError.fetchFail (FetchError.backendIndicated 404 3)) (by decide)

end HTTPRecord
